import Mathlib

/-!
Verification of the server bootstrap / transport-establishment core
(`app/src/server.c`) against its natural-language specification.

The C code is shallowly embedded: the `struct server` state becomes a Lean
structure, the external effects (adb commands, socket listen/connect/accept,
HTTP GET, one-byte recv) become oracle functions packaged in environment
records, and each C function becomes a total Lean function on that state,
instrumented with an event trace where a claim speaks about the sequence of
operations performed.  Machine integers are modelled as `Nat`; the only
places where fixed-width behaviour matters (the `uint16_t` port counter and
the `uint32_t` attempts counter) are treated explicitly below.
-/

/-- Socket handles: `none` models `INVALID_SOCKET`, `some id` a valid socket. -/
abbrev Socket := Option Nat

/-- `struct sc_port_range` from the source: a closed interval of u16 ports. -/
structure PortRange where
  first : Nat
  last : Nat
deriving DecidableEq

/-- The fields of `struct server` that `server.c` reads or writes.
`server_init` zeroes all of them; the mutex and condition variable are
modelled as always successfully allocated (their only observable content is
the `process_terminated` flag they guard).  `server_socket_closed` is the
atomic close-authority flag (`atomic_flag`), `false` meaning clear. -/
structure Server where
  serial : Option String
  url : Option String
  addr : Nat
  process : Option Nat
  wait_server_thread : Option Nat
  server_socket_closed : Bool
  process_terminated : Bool
  server_socket : Socket
  video_socket : Socket
  control_socket : Socket
  port_range : PortRange
  local_port : Nat
  tunnel_enabled : Bool
  tunnel_forward : Bool
  direct : Bool
deriving DecidableEq

/-- `server_init`: zero all fields, clear the atomic flag, set every socket to
`INVALID_SOCKET` (allocation of the mutex and condition variable is modelled
as succeeding). -/
def server_init : Server :=
  { serial := none
    url := none
    addr := 0
    process := none
    wait_server_thread := none
    server_socket_closed := false
    process_terminated := false
    server_socket := none
    video_socket := none
    control_socket := none
    port_range := ⟨0, 0⟩
    local_port := 0
    tunnel_enabled := false
    tunnel_forward := false
    direct := false }

/-- Oracles for the tunnel-establishment phase: whether `adb reverse`,
`net_listen` and `adb forward` succeed at a given port.  On a successful
`net_listen` the returned socket is modelled as carrying the port number.
The result of `adb reverse --remove` is ignored by the source (only a
warning is logged), so it needs no oracle. -/
structure TunnelEnv where
  reverseOk : Nat → Bool
  listenOk : Nat → Bool
  forwardOk : Nat → Bool

/-- Bridge/net operations performed by the tunnel loops, in program order.
`reverseRemove` records the port the loop was probing when it issued
`adb reverse --remove` (the C call itself only passes the socket name). -/
inductive BridgeEvent where
  | reverse (port : Nat)
  | listen (port : Nat)
  | reverseRemove (port : Nat)
  | forward (port : Nat)
deriving DecidableEq

/-- Loop body of `enable_tunnel_reverse_any_port`, entered with the current
candidate `port`; `last` is `port_range.last`.  Mirrors the source exactly:
`adb reverse` first (any failure aborts the whole strategy), then
`net_listen` whose result is assigned to `server_socket` even on failure,
then `adb reverse --remove` and — only when `port < last` — the increment.
The u16 increment cannot wrap because it is guarded by `port < last` with
`last ≤ 0xFFFF`, so plain `Nat` successor is the exact semantics. -/
def enable_tunnel_reverse_any_port_from (env : TunnelEnv) (s : Server)
    (last port : Nat) : Server × Bool × List BridgeEvent :=
  if env.reverseOk port = false then
    (s, false, [BridgeEvent.reverse port])
  else
    let s1 : Server :=
      { s with server_socket := if env.listenOk port then some port else none }
    if env.listenOk port then
      ({ s1 with local_port := port }, true,
        [BridgeEvent.reverse port, BridgeEvent.listen port])
    else if h : port < last then
      let r := enable_tunnel_reverse_any_port_from env s1 last (port + 1)
      (r.1, r.2.1,
        BridgeEvent.reverse port :: BridgeEvent.listen port ::
          BridgeEvent.reverseRemove port :: r.2.2)
    else
      (s1, false,
        [BridgeEvent.reverse port, BridgeEvent.listen port,
          BridgeEvent.reverseRemove port])
termination_by last - port

/-- `enable_tunnel_reverse_any_port`: run the loop from `port_range.first`. -/
def enable_tunnel_reverse_any_port (env : TunnelEnv) (s : Server)
    (pr : PortRange) : Server × Bool × List BridgeEvent :=
  enable_tunnel_reverse_any_port_from env s pr.last pr.first

/-- Loop body of `enable_tunnel_forward_any_port`: try `adb forward` at each
port, incrementing only while `port < last`. -/
def enable_tunnel_forward_any_port_from (env : TunnelEnv) (s : Server)
    (last port : Nat) : Server × Bool × List BridgeEvent :=
  if env.forwardOk port then
    ({ s with local_port := port }, true, [BridgeEvent.forward port])
  else if h : port < last then
    let r := enable_tunnel_forward_any_port_from env s last (port + 1)
    (r.1, r.2.1, BridgeEvent.forward port :: r.2.2)
  else
    (s, false, [BridgeEvent.forward port])
termination_by last - port

/-- `enable_tunnel_forward_any_port`: the source sets
`server->tunnel_forward = true` before entering the loop, unconditionally. -/
def enable_tunnel_forward_any_port (env : TunnelEnv) (s : Server)
    (pr : PortRange) : Server × Bool × List BridgeEvent :=
  enable_tunnel_forward_any_port_from env { s with tunnel_forward := true }
    pr.last pr.first

/-- `enable_tunnel_any_port`: unless `force_adb_forward` is set, attempt the
reverse strategy first and fall back to the forward strategy on failure. -/
def enable_tunnel_any_port (env : TunnelEnv) (s : Server) (pr : PortRange)
    (force_adb_forward : Bool) : Server × Bool × List BridgeEvent :=
  if force_adb_forward = false then
    let r := enable_tunnel_reverse_any_port env s pr
    if r.2.1 then r
    else
      let f := enable_tunnel_forward_any_port env r.1 pr
      (f.1, f.2.1, r.2.2 ++ f.2.2)
  else
    enable_tunnel_forward_any_port env s pr

/-- Candidate ports on which the reverse strategy issued `adb reverse`. -/
def reverseTried (tr : List BridgeEvent) : List Nat :=
  tr.filterMap fun e =>
    match e with
    | BridgeEvent.reverse p => some p
    | _ => none

/-- Candidate ports on which the forward strategy issued `adb forward`. -/
def forwardTried (tr : List BridgeEvent) : List Nat :=
  tr.filterMap fun e =>
    match e with
    | BridgeEvent.forward p => some p
    | _ => none

theorem reverseTried_nil : reverseTried [] = [] := rfl

theorem reverseTried_cons_reverse (p : Nat) (tr : List BridgeEvent) :
    reverseTried (BridgeEvent.reverse p :: tr) = p :: reverseTried tr := rfl

theorem reverseTried_cons_listen (p : Nat) (tr : List BridgeEvent) :
    reverseTried (BridgeEvent.listen p :: tr) = reverseTried tr := rfl

theorem reverseTried_cons_remove (p : Nat) (tr : List BridgeEvent) :
    reverseTried (BridgeEvent.reverseRemove p :: tr) = reverseTried tr := rfl

theorem forwardTried_nil : forwardTried [] = [] := rfl

theorem forwardTried_cons_forward (p : Nat) (tr : List BridgeEvent) :
    forwardTried (BridgeEvent.forward p :: tr) = p :: forwardTried tr := rfl

/-- Every port on which the reverse loop issues `adb reverse` lies between the
entry port and `max port last`. -/
theorem reverse_from_tried_mem (env : TunnelEnv) (last : Nat) :
    ∀ n port (s : Server), last - port ≤ n →
      ∀ p ∈ reverseTried (enable_tunnel_reverse_any_port_from env s last port).2.2,
        port ≤ p ∧ p ≤ max port last := by
  intro n
  induction n with
  | zero =>
      intro port s hn p hp
      rw [enable_tunnel_reverse_any_port_from] at hp
      have hnl : ¬ port < last := by omega
      by_cases hr : env.reverseOk port = false
      · simp [hr, reverseTried] at hp
        omega
      · by_cases hl : env.listenOk port
        · simp [hr, hl, reverseTried] at hp
          omega
        · simp [hr, hl, hnl, reverseTried] at hp
          omega
  | succ n ih =>
      intro port s hn p hp
      rw [enable_tunnel_reverse_any_port_from] at hp
      by_cases hr : env.reverseOk port = false
      · simp [hr, reverseTried] at hp
        omega
      · by_cases hl : env.listenOk port
        · simp [hr, hl, reverseTried] at hp
          omega
        · by_cases hlt : port < last
          · simp [hr, hl, hlt, reverseTried] at hp
            rcases hp with rfl | hp
            · omega
            · have := ih (port + 1) _ (by omega) p
                (by simpa [reverseTried] using hp)
              omega
          · simp [hr, hl, hlt, reverseTried] at hp
            omega

/-- The reverse loop tries at most `last - port + 1` candidate ports. -/
theorem reverse_from_tried_length (env : TunnelEnv) (last : Nat) :
    ∀ n port (s : Server), last - port ≤ n →
      (reverseTried (enable_tunnel_reverse_any_port_from env s last port).2.2).length
        ≤ last - port + 1 := by
  intro n
  induction n with
  | zero =>
      intro port s hn
      rw [enable_tunnel_reverse_any_port_from]
      have hnl : ¬ port < last := by omega
      by_cases hr : env.reverseOk port = false
      · simp [hr, reverseTried]
      · by_cases hl : env.listenOk port
        · simp [hr, hl, reverseTried]
        · simp [hr, hl, hnl, reverseTried]
  | succ n ih =>
      intro port s hn
      rw [enable_tunnel_reverse_any_port_from]
      by_cases hr : env.reverseOk port = false
      · simp [hr, reverseTried]
      · by_cases hl : env.listenOk port
        · simp [hr, hl, reverseTried]
        · by_cases hlt : port < last
          · have h2 := ih (port + 1)
              ({ s with server_socket := none } : Server) (by omega)
            simp only [reverseTried] at h2 ⊢
            simp [hr, hl, hlt]
            omega
          · simp [hr, hl, hlt, reverseTried]

/-- The reverse loop always issues `adb reverse` on its entry port first. -/
theorem reverse_from_tried_head (env : TunnelEnv) (s : Server) (last port : Nat) :
    ∃ t, reverseTried (enable_tunnel_reverse_any_port_from env s last port).2.2
           = port :: t := by
  rw [enable_tunnel_reverse_any_port_from]
  split
  · exact ⟨[], rfl⟩
  · split
    · exact ⟨[], rfl⟩
    · split
      · exact ⟨_, rfl⟩
      · exact ⟨[], rfl⟩

/-- When the reverse loop fails, `local_port` and `tunnel_forward` keep their
entry values (the loop writes only `server_socket` on its failure paths). -/
theorem reverse_from_fail_frame (env : TunnelEnv) (last : Nat) :
    ∀ n port (s : Server), last - port ≤ n →
      (enable_tunnel_reverse_any_port_from env s last port).2.1 = false →
      (enable_tunnel_reverse_any_port_from env s last port).1.local_port
          = s.local_port ∧
        (enable_tunnel_reverse_any_port_from env s last port).1.tunnel_forward
          = s.tunnel_forward := by
  intro n
  induction n with
  | zero =>
      intro port s hn hfail
      rw [enable_tunnel_reverse_any_port_from] at hfail ⊢
      have hnl : ¬ port < last := by omega
      by_cases hr : env.reverseOk port = false
      · simp [hr]
      · by_cases hl : env.listenOk port
        · simp [hr, hl] at hfail
        · simp [hr, hl, hnl]
  | succ n ih =>
      intro port s hn hfail
      rw [enable_tunnel_reverse_any_port_from] at hfail ⊢
      by_cases hr : env.reverseOk port = false
      · simp [hr]
      · by_cases hl : env.listenOk port
        · simp [hr, hl] at hfail
        · by_cases hlt : port < last
          · simp only [hr, hl, hlt] at hfail ⊢
            simp at hfail ⊢
            have := ih (port + 1)
              ({ s with server_socket := none } : Server) (by omega)
              (by simpa using hfail)
            simpa using this
          · simp [hr, hl, hlt]

/-- A `reverse --remove` is issued at a port only when `adb reverse` had
succeeded there and the local `net_listen` then failed. -/
theorem reverse_from_remove_cond (env : TunnelEnv) (last : Nat) :
    ∀ n port (s : Server), last - port ≤ n → ∀ p,
      BridgeEvent.reverseRemove p ∈
          (enable_tunnel_reverse_any_port_from env s last port).2.2 →
        env.reverseOk p = true ∧ env.listenOk p = false := by
  intro n
  induction n with
  | zero =>
      intro port s hn p hp
      rw [enable_tunnel_reverse_any_port_from] at hp
      have hnl : ¬ port < last := by omega
      by_cases hr : env.reverseOk port = false
      · simp [hr] at hp
      · by_cases hl : env.listenOk port
        · simp [hr, hl] at hp
        · simp [hr, hl, hnl] at hp
          simp only [hp]
          simp [Bool.not_eq_false] at hr hl ⊢
          exact ⟨hr, by simpa using hl⟩
  | succ n ih =>
      intro port s hn p hp
      rw [enable_tunnel_reverse_any_port_from] at hp
      by_cases hr : env.reverseOk port = false
      · simp [hr] at hp
      · by_cases hl : env.listenOk port
        · simp [hr, hl] at hp
        · by_cases hlt : port < last
          · simp [hr, hl, hlt] at hp
            rcases hp with rfl | hp
            · simp [Bool.not_eq_false] at hr hl
              exact ⟨hr, by simpa using hl⟩
            · exact ih (port + 1) _ (by omega) p hp
          · simp [hr, hl, hlt] at hp
            simp only [hp]
            simp [Bool.not_eq_false] at hr hl ⊢
            exact ⟨hr, by simpa using hl⟩

/-- Every port on which the forward loop issues `adb forward` lies between the
entry port and `max port last`. -/
theorem forward_from_tried_mem (env : TunnelEnv) (s : Server) (last port : Nat) :
    ∀ p ∈ forwardTried (enable_tunnel_forward_any_port_from env s last port).2.2,
      port ≤ p ∧ p ≤ max port last := by
  induction port using enable_tunnel_forward_any_port_from.induct env s last with
  | case1 x h =>
      intro p hp
      rw [enable_tunnel_forward_any_port_from] at hp
      simp [h, forwardTried] at hp
      omega
  | case2 x h1 h2 ih =>
      intro p hp
      rw [enable_tunnel_forward_any_port_from] at hp
      simp [h1, h2, forwardTried] at hp
      rcases hp with rfl | hp
      · omega
      · have := ih p (by simpa [forwardTried] using hp)
        omega
  | case3 x h1 h2 =>
      intro p hp
      rw [enable_tunnel_forward_any_port_from] at hp
      simp [h1, h2, forwardTried] at hp
      omega

/-- The forward loop tries at most `last - port + 1` candidate ports. -/
theorem forward_from_tried_length (env : TunnelEnv) (s : Server) (last port : Nat) :
    (forwardTried (enable_tunnel_forward_any_port_from env s last port).2.2).length
      ≤ last - port + 1 := by
  induction port using enable_tunnel_forward_any_port_from.induct env s last with
  | case1 x h =>
      rw [enable_tunnel_forward_any_port_from]
      simp [h, forwardTried]
  | case2 x h1 h2 ih =>
      rw [enable_tunnel_forward_any_port_from]
      simp only [forwardTried] at ih ⊢
      simp [h1, h2]
      omega
  | case3 x h1 h2 =>
      rw [enable_tunnel_forward_any_port_from]
      simp [h1, h2, forwardTried]

/-- The forward loop always issues `adb forward` on its entry port first. -/
theorem forward_from_tried_head (env : TunnelEnv) (s : Server) (last port : Nat) :
    ∃ t, forwardTried (enable_tunnel_forward_any_port_from env s last port).2.2
           = port :: t := by
  rw [enable_tunnel_forward_any_port_from]
  split
  · exact ⟨[], rfl⟩
  · split
    · exact ⟨_, rfl⟩
    · exact ⟨[], rfl⟩

/-- The forward loop's first event is `adb forward` on its entry port. -/
theorem forward_from_trace_head (env : TunnelEnv) (s : Server) (last port : Nat) :
    (enable_tunnel_forward_any_port_from env s last port).2.2.head?
      = some (BridgeEvent.forward port) := by
  rw [enable_tunnel_forward_any_port_from]
  split
  · rfl
  · split
    · rfl
    · rfl

/-- When the forward loop fails it returns its entry state unchanged. -/
theorem forward_from_fail_frame (env : TunnelEnv) (s : Server) (last port : Nat) :
    (enable_tunnel_forward_any_port_from env s last port).2.1 = false →
    (enable_tunnel_forward_any_port_from env s last port).1 = s := by
  induction port using enable_tunnel_forward_any_port_from.induct env s last with
  | case1 x h =>
      intro hfail
      rw [enable_tunnel_forward_any_port_from] at hfail
      simp [h] at hfail
  | case2 x h1 h2 ih =>
      intro hfail
      rw [enable_tunnel_forward_any_port_from] at hfail ⊢
      simp only [h1, h2] at hfail ⊢
      simp at hfail ⊢
      exact ih (by simpa using hfail)
  | case3 x h1 h2 =>
      intro hfail
      rw [enable_tunnel_forward_any_port_from]
      simp [h1, h2]

/-- A tunnel environment in which every bridge command and every listen
fails. -/
def tunnelEnvAllFail : TunnelEnv :=
  { reverseOk := fun _ => false
    listenOk := fun _ => false
    forwardOk := fun _ => false }

/-- C4: for every port range `{first = a, last = b}` with `a ≤ b`, both the
reverse and the forward tunnel loops try at most `b - a + 1` candidate ports
and terminate (the embedded loops are total functions); every port tried lies
in `[a, b]`, so with `b = 0xFFFF` the u16 counter is never incremented past
`0xFFFF` (the comparison `port < last` precedes the increment), and with
`a = b = 65535` exactly one port is tried by each loop. -/
theorem C4_port_sweep_bounded (env : TunnelEnv) (s : Server) (a b : Nat)
    (hab : a ≤ b) :
    ((reverseTried (enable_tunnel_reverse_any_port env s ⟨a, b⟩).2.2).length
        ≤ b - a + 1 ∧
      ∀ p ∈ reverseTried (enable_tunnel_reverse_any_port env s ⟨a, b⟩).2.2,
        a ≤ p ∧ p ≤ b) ∧
    ((forwardTried (enable_tunnel_forward_any_port env s ⟨a, b⟩).2.2).length
        ≤ b - a + 1 ∧
      ∀ p ∈ forwardTried (enable_tunnel_forward_any_port env s ⟨a, b⟩).2.2,
        a ≤ p ∧ p ≤ b) ∧
    (a = b →
      (reverseTried (enable_tunnel_reverse_any_port env s ⟨a, b⟩).2.2).length
          = 1 ∧
        (forwardTried (enable_tunnel_forward_any_port env s ⟨a, b⟩).2.2).length
          = 1) := by
  rw [enable_tunnel_reverse_any_port, enable_tunnel_forward_any_port]
  refine ⟨⟨?_, ?_⟩, ⟨?_, ?_⟩, ?_⟩
  · exact reverse_from_tried_length env b (b - a) a s le_rfl
  · intro p hp
    have := reverse_from_tried_mem env b (b - a) a s le_rfl p hp
    omega
  · exact forward_from_tried_length env { s with tunnel_forward := true } b a
  · intro p hp
    have := forward_from_tried_mem env { s with tunnel_forward := true } b a p hp
    omega
  · intro hab2
    subst hab2
    constructor
    · have hle := reverse_from_tried_length env a (a - a) a s le_rfl
      obtain ⟨t, ht⟩ := reverse_from_tried_head env s a a
      rw [ht] at hle ⊢
      simp only [List.length_cons] at hle ⊢
      omega
    · have hle := forward_from_tried_length env { s with tunnel_forward := true } a a
      obtain ⟨t, ht⟩ := forward_from_tried_head env { s with tunnel_forward := true } a a
      rw [ht] at hle ⊢
      simp only [List.length_cons] at hle ⊢
      omega

/-- Witness for C4 at the boundary range `{65535, 65535}`. -/
theorem C4_port_sweep_bounded_witness :
    65535 ≤ 65535 ∧
    (((reverseTried (enable_tunnel_reverse_any_port tunnelEnvAllFail server_init
          ⟨65535, 65535⟩).2.2).length ≤ 65535 - 65535 + 1 ∧
      ∀ p ∈ reverseTried (enable_tunnel_reverse_any_port tunnelEnvAllFail
          server_init ⟨65535, 65535⟩).2.2, 65535 ≤ p ∧ p ≤ 65535) ∧
    ((forwardTried (enable_tunnel_forward_any_port tunnelEnvAllFail server_init
          ⟨65535, 65535⟩).2.2).length ≤ 65535 - 65535 + 1 ∧
      ∀ p ∈ forwardTried (enable_tunnel_forward_any_port tunnelEnvAllFail
          server_init ⟨65535, 65535⟩).2.2, 65535 ≤ p ∧ p ≤ 65535) ∧
    (65535 = 65535 →
      (reverseTried (enable_tunnel_reverse_any_port tunnelEnvAllFail server_init
          ⟨65535, 65535⟩).2.2).length = 1 ∧
        (forwardTried (enable_tunnel_forward_any_port tunnelEnvAllFail
          server_init ⟨65535, 65535⟩).2.2).length = 1)) :=
  ⟨by decide,
    C4_port_sweep_bounded tunnelEnvAllFail server_init 65535 65535 (by decide)⟩

/-- C5: if `adb reverse` itself fails on the first candidate port, the reverse
strategy returns err immediately without sweeping further ports (and without
any `reverse --remove`); the cascade with `force_adb_forward = false` then
runs the forward strategy, whose first action is `adb forward` on
`port_range.first` again; and in general a `reverse --remove` is issued at a
port only when `adb reverse` succeeded there and the local listen failed. -/
theorem C5_reverse_command_failure (env : TunnelEnv) (s : Server)
    (pr : PortRange) (hfail : env.reverseOk pr.first = false) :
    enable_tunnel_reverse_any_port env s pr
        = (s, false, [BridgeEvent.reverse pr.first]) ∧
    (enable_tunnel_any_port env s pr false).2.2
        = BridgeEvent.reverse pr.first ::
            (enable_tunnel_forward_any_port env s pr).2.2 ∧
    (enable_tunnel_forward_any_port env s pr).2.2.head?
        = some (BridgeEvent.forward pr.first) ∧
    ∀ (env' : TunnelEnv) (s' : Server) (pr' : PortRange) (p : Nat),
      BridgeEvent.reverseRemove p ∈
          (enable_tunnel_reverse_any_port env' s' pr').2.2 →
        env'.reverseOk p = true ∧ env'.listenOk p = false := by
  have h1 : enable_tunnel_reverse_any_port env s pr
      = (s, false, [BridgeEvent.reverse pr.first]) := by
    rw [enable_tunnel_reverse_any_port, enable_tunnel_reverse_any_port_from]
    simp [hfail]
  refine ⟨h1, ?_, ?_, ?_⟩
  · rw [enable_tunnel_any_port]
    simp [h1]
  · rw [enable_tunnel_forward_any_port]
    exact forward_from_trace_head env _ pr.last pr.first
  · intro env' s' pr' p hp
    rw [enable_tunnel_reverse_any_port] at hp
    exact reverse_from_remove_cond env' pr'.last (pr'.last - pr'.first)
      pr'.first s' le_rfl p hp

/-- Witness for C5 with a concrete failing environment and the range
`{27183, 27199}`. -/
theorem C5_reverse_command_failure_witness :
    tunnelEnvAllFail.reverseOk 27183 = false ∧
    (enable_tunnel_reverse_any_port tunnelEnvAllFail server_init ⟨27183, 27199⟩
        = (server_init, false, [BridgeEvent.reverse 27183]) ∧
    (enable_tunnel_any_port tunnelEnvAllFail server_init ⟨27183, 27199⟩ false).2.2
        = BridgeEvent.reverse 27183 ::
            (enable_tunnel_forward_any_port tunnelEnvAllFail server_init
              ⟨27183, 27199⟩).2.2 ∧
    (enable_tunnel_forward_any_port tunnelEnvAllFail server_init
        ⟨27183, 27199⟩).2.2.head?
        = some (BridgeEvent.forward 27183) ∧
    ∀ (env' : TunnelEnv) (s' : Server) (pr' : PortRange) (p : Nat),
      BridgeEvent.reverseRemove p ∈
          (enable_tunnel_reverse_any_port env' s' pr').2.2 →
        env'.reverseOk p = true ∧ env'.listenOk p = false) :=
  ⟨rfl, C5_reverse_command_failure tunnelEnvAllFail server_init ⟨27183, 27199⟩ rfl⟩

/-- Counterexample to C6 as stated: with every tunnel command failing on the
range `{27183, 27183}`, `enable_tunnel_any_port` returns err, yet it has
changed `tunnel_forward` from `false` to `true` (the forward loop sets the
flag before knowing whether any port succeeds). -/
theorem C6_counterexample :
    (enable_tunnel_any_port tunnelEnvAllFail server_init ⟨27183, 27183⟩
        false).2.1 = false ∧
    server_init.tunnel_forward = false ∧
    (enable_tunnel_any_port tunnelEnvAllFail server_init ⟨27183, 27183⟩
        false).1.tunnel_forward = true := by
  refine ⟨?_, rfl, ?_⟩ <;>
  · simp [enable_tunnel_any_port, enable_tunnel_reverse_any_port,
      enable_tunnel_reverse_any_port_from, enable_tunnel_forward_any_port,
      enable_tunnel_forward_any_port_from, tunnelEnvAllFail]

/-- C6 amended: when `enable_tunnel_any_port` returns err, `local_port` is
left unchanged, but `tunnel_forward` has been set to `true` by the forward
strategy attempt (the source sets the flag on entry to the forward loop, not
on success). -/
theorem C6_establish_err_state (env : TunnelEnv) (s : Server) (pr : PortRange)
    (force : Bool)
    (hfail : (enable_tunnel_any_port env s pr force).2.1 = false) :
    (enable_tunnel_any_port env s pr force).1.local_port = s.local_port ∧
    (enable_tunnel_any_port env s pr force).1.tunnel_forward = true := by
  cases force with
  | true =>
      rw [enable_tunnel_any_port] at hfail ⊢
      simp only [Bool.true_eq_false, if_false] at hfail ⊢
      rw [enable_tunnel_forward_any_port] at hfail ⊢
      have hframe := forward_from_fail_frame env
        { s with tunnel_forward := true } pr.last pr.first hfail
      rw [hframe]
      exact ⟨rfl, rfl⟩
  | false =>
      rw [enable_tunnel_any_port] at hfail ⊢
      simp only [if_true, reduceIte] at hfail ⊢
      by_cases hr : (enable_tunnel_reverse_any_port env s pr).2.1 = true
      · simp only [hr, if_true, reduceIte] at hfail
        exact absurd hfail (by decide)
      · have hr' : (enable_tunnel_reverse_any_port env s pr).2.1 = false := by
          simpa using hr
        simp only [hr', Bool.false_eq_true, if_false, reduceIte] at hfail ⊢
        rw [enable_tunnel_forward_any_port] at hfail ⊢
        have hframe := forward_from_fail_frame env
          { (enable_tunnel_reverse_any_port env s pr).1 with
              tunnel_forward := true } pr.last pr.first (by simpa using hfail)
        rw [hframe]
        have hrev := reverse_from_fail_frame env pr.last (pr.last - pr.first)
          pr.first s le_rfl (by rw [← enable_tunnel_reverse_any_port]; exact hr')
        rw [← enable_tunnel_reverse_any_port] at hrev
        exact ⟨hrev.1, rfl⟩

/-- Witness for the amended C6 on a concrete failing environment. -/
theorem C6_establish_err_state_witness :
    (enable_tunnel_any_port tunnelEnvAllFail server_init ⟨27183, 27184⟩
        false).2.1 = false ∧
    ((enable_tunnel_any_port tunnelEnvAllFail server_init ⟨27183, 27184⟩
        false).1.local_port = server_init.local_port ∧
    (enable_tunnel_any_port tunnelEnvAllFail server_init ⟨27183, 27184⟩
        false).1.tunnel_forward = true) := by
  have hfail : (enable_tunnel_any_port tunnelEnvAllFail server_init
      ⟨27183, 27184⟩ false).2.1 = false := by
    simp [enable_tunnel_any_port, enable_tunnel_reverse_any_port,
      enable_tunnel_reverse_any_port_from, enable_tunnel_forward_any_port,
      enable_tunnel_forward_any_port_from, tunnelEnvAllFail]
  exact ⟨hfail, C6_establish_err_state tunnelEnvAllFail server_init
    ⟨27183, 27184⟩ false hfail⟩

/-- `connect_and_read_byte`: a connection attempt is modelled by the pending
byte stream the peer will deliver (`none` when `net_connect` fails).  The
source reads exactly one byte after connecting; `net_recv(…, 1)` returns `1`
iff a byte is available, and every other outcome (error, EOF, short read)
takes the same branch in the source, so it is modelled as the empty stream.
The result is the stream the caller will see from the returned socket,
paired with whether `net_close` was called. -/
def connect_and_read_byte (conn : Option (List Nat)) :
    Option (List Nat) × Bool :=
  match conn with
  | none => (none, false)
  | some [] => (none, true)
  | some (_ :: rest) => (some rest, false)

/-- C8: `connect_and_read_byte` returns `Invalid` without closing when the
connect fails; closes the socket and returns `Invalid` when the one-byte read
yields nothing; and on success delivers exactly the original stream minus its
first byte — the readiness byte is consumed and never reaches consumers. -/
theorem C8_connect_and_read_byte_spec (conn : Option (List Nat)) :
    (conn = none → connect_and_read_byte conn = (none, false)) ∧
    (conn = some [] → connect_and_read_byte conn = (none, true)) ∧
    (∀ b rest, conn = some (b :: rest) →
      connect_and_read_byte conn = (some rest, false) ∧
      (connect_and_read_byte conn).1 = (some ((b :: rest).drop 1))) := by
  refine ⟨?_, ?_, ?_⟩
  · intro h; subst h; rfl
  · intro h; subst h; rfl
  · intro b rest h
    subst h
    exact ⟨rfl, rfl⟩

/-- Witness for C8 on the concrete stream `[7, 1, 2]`: the readiness byte `7`
is dropped and `[1, 2]` is delivered. -/
theorem C8_connect_and_read_byte_spec_witness :
    some [7, 1, 2] = some ((7 : Nat) :: [1, 2]) ∧
    (connect_and_read_byte (some [7, 1, 2]) = (some [1, 2], false) ∧
      (connect_and_read_byte (some [7, 1, 2])).1
        = some (((7 : Nat) :: [1, 2]).drop 1)) :=
  ⟨rfl, (C8_connect_and_read_byte_spec (some [7, 1, 2])).2.2 7 [1, 2] rfl⟩

/-- The `do … while (--attempts > 0)` loop of `connect_to_server`, for
iterations entered with u32 counter value `c ≥ 1` (on those iterations the
u32 post-decrement `--attempts` equals `c - 1`; the counter can wrap at most
once, at entry value `0`, and that single iteration is unrolled by hand in
`connect_to_server` below).  `probeOk i` tells whether the `i`-th invocation
of `connect_and_read_byte` succeeds; a successful socket is modelled as that
index.  The result records, in order: the returned socket, the number of
probe invocations, and the number of `SDL_Delay` calls.  The sleep guard
`if (attempts)` tests the counter before the decrement, hence `c ≠ 0`. -/
def connect_to_server_loop (probeOk : Nat → Bool) (idx c : Nat) :
    Option Nat × Nat × Nat :=
  if probeOk idx then (some idx, 1, 0)
  else if h : c - 1 > 0 then
    let r := connect_to_server_loop probeOk (idx + 1) (c - 1)
    (r.1, r.2.1 + 1, r.2.2 + (if c ≠ 0 then 1 else 0))
  else (none, 1, if c ≠ 0 then 1 else 0)
termination_by c
decreasing_by
  omega

/-- `connect_to_server(addr, port, attempts, delay)`: run the do-while body
starting with counter `attempts` (a u32, so `attempts ≤ 4294967295`).  When
`attempts = 0` the body still runs once — the loop test comes after the
body — with no sleep (`if (attempts)` sees `0`); the post-decrement then
wraps the counter from `0` to `4294967295` and the loop continues. -/
def connect_to_server (probeOk : Nat → Bool) (attempts : Nat) :
    Option Nat × Nat × Nat :=
  if attempts = 0 then
    if probeOk 0 then (some 0, 1, 0)
    else
      let r := connect_to_server_loop probeOk 1 4294967295
      (r.1, r.2.1 + 1, r.2.2)
  else connect_to_server_loop probeOk 0 attempts

/-- When every probe in reach fails, the do-while loop entered with counter
`c ≥ 1` probes exactly `c` times and sleeps exactly `c` times — including a
sleep after the final failed attempt, because the guard `if (attempts)`
tests the counter before the post-decrement, and the counter is still
nonzero on the last iteration. -/
theorem connect_loop_all_fail (probeOk : Nat → Bool) :
    ∀ c, 1 ≤ c → ∀ idx,
      (∀ i, i < c → probeOk (idx + i) = false) →
      connect_to_server_loop probeOk idx c = (none, c, c) := by
  intro c
  induction c using Nat.strong_induction_on with
  | _ c ih =>
    intro h1 idx hfail
    rw [connect_to_server_loop]
    have hp0 : probeOk idx = false := by simpa using hfail 0 (by omega)
    have hcne : c ≠ 0 := by omega
    simp only [hp0, Bool.false_eq_true, if_false]
    by_cases hc : c = 1
    · subst hc
      simp
    · have hgt : c - 1 > 0 := by omega
      rw [dif_pos hgt]
      have hr := ih (c - 1) (by omega) (by omega) (idx + 1)
        (fun i hi => by
          rw [Nat.add_assoc, Nat.add_comm 1 i]
          exact hfail (i + 1) (by omega))
      simp only [hr, ne_eq, hcne, not_false_eq_true, if_true]
      refine Prod.ext rfl (Prod.ext ?_ ?_) <;> simp <;> omega

/-- If the `j`-th probe (0-based) is the first to succeed and `j` is within
the counter's reach, the loop returns that socket after `j + 1` probes and
`j` sleeps (one after each failed attempt that is followed by another). -/
theorem connect_loop_first_success (probeOk : Nat → Bool) :
    ∀ j c idx, j < c → probeOk (idx + j) = true →
      (∀ i, i < j → probeOk (idx + i) = false) →
      connect_to_server_loop probeOk idx c = (some (idx + j), j + 1, j) := by
  intro j
  induction j with
  | zero =>
      intro c idx hj hp hprev
      rw [connect_to_server_loop]
      simp only [Nat.add_zero] at hp
      simp [hp]
  | succ j ih =>
      intro c idx hj hp hprev
      rw [connect_to_server_loop]
      have hp0 : probeOk idx = false := by simpa using hprev 0 (by omega)
      have hcne : c ≠ 0 := by omega
      have hgt : c - 1 > 0 := by omega
      simp only [hp0, Bool.false_eq_true, if_false]
      rw [dif_pos hgt]
      have hr := ih (c - 1) (idx + 1) (by omega)
        (by
          rw [Nat.add_assoc, Nat.add_comm 1 j]
          exact hp)
        (fun i hi => by
          rw [Nat.add_assoc, Nat.add_comm 1 i]
          exact hprev (i + 1) (by omega))
      simp only [hr, ne_eq, hcne, not_false_eq_true, if_true]
      refine Prod.ext ?_ (Prod.ext ?_ ?_) <;> simp <;> omega

/-- Entered with counter `0`, the body runs once with no sleep, the
post-decrement wraps to `4294967295`, and on persistent failure the loop
performs `2^32` probes and `2^32 - 1` sleeps before returning `Invalid`. -/
theorem connect_to_server_zero_all_fail (probeOk : Nat → Bool)
    (hfail : ∀ i, probeOk i = false) :
    connect_to_server probeOk 0 = (none, 4294967296, 4294967295) := by
  rw [connect_to_server]
  simp only [if_true, reduceIte, hfail 0, Bool.false_eq_true, if_false]
  have hr := connect_loop_all_fail probeOk 4294967295 (by omega) 1
    (fun i _ => hfail (1 + i))
  simp only [hr]

/-- Counterexample to C9 as stated: with `attempts = 1` and a probe that
always fails, the single (final) failed attempt is still followed by a
sleep — `connect_to_server` performs 1 probe and 1 sleep, not 0 sleeps —
because the guard `if (attempts)` tests the counter before the
post-decrement and the counter is nonzero on every iteration entered with
`attempts ≥ 1`. -/
theorem C9_counterexample :
    connect_to_server (fun _ => false) 1 = (none, 1, 1) ∧ (1 : Nat) ≠ 0 := by
  constructor
  · simp [connect_to_server, connect_to_server_loop]
  · decide

/-- C9 amended: for `attempts ≥ 1`, `connect_to_server` invokes the probe up
to `attempts` times and returns the first successful socket, or `Invalid`
after `attempts` failed probes; it sleeps after every failed attempt —
including the final one — so persistent failure costs `attempts` sleeps and
a first success at 0-based index `j` costs `j` sleeps. -/
theorem C9_connect_with_retry (probeOk : Nat → Bool) (attempts : Nat)
    (h1 : 1 ≤ attempts) :
    ((∀ i, i < attempts → probeOk i = false) →
      connect_to_server probeOk attempts = (none, attempts, attempts)) ∧
    (∀ j, j < attempts → probeOk j = true →
      (∀ i, i < j → probeOk i = false) →
      connect_to_server probeOk attempts = (some j, j + 1, j)) := by
  have hne : ¬ attempts = 0 := by omega
  constructor
  · intro hfail
    rw [connect_to_server]
    simp only [hne, if_false, reduceIte]
    exact connect_loop_all_fail probeOk attempts h1 0
      (fun i hi => by simpa using hfail i hi)
  · intro j hj hp hprev
    rw [connect_to_server]
    simp only [hne, if_false, reduceIte]
    have h := connect_loop_first_success probeOk j attempts 0 hj
      (by simpa using hp) (fun i hi => by simpa using hprev i hi)
    simpa using h

/-- Witness for the amended C9: two attempts, the second probe succeeds;
one sleep separates the two attempts. -/
theorem C9_connect_with_retry_witness :
    1 ≤ 2 ∧
    connect_to_server (fun i => decide (i = 1)) 2 = (some 1, 1 + 1, 1) :=
  ⟨by decide,
    (C9_connect_with_retry (fun i => decide (i = 1)) 2 (by decide)).2 1
      (by decide) (by decide)
      (fun i hi => by
        have h0 : i = 0 := by omega
        subst h0
        decide)⟩

/-- Counterexample to C10 as stated: with `attempts = 0` and a probe that
always fails, the code performs `2^32` probe attempts but only `2^32 - 1`
delays — the first probe (executed while the counter is still `0`) is not
followed by a delay, contradicting the claim that each probe attempt is
followed by one. -/
theorem C10_counterexample :
    connect_to_server (fun _ => false) 0 = (none, 4294967296, 4294967295) ∧
    (4294967295 : Nat) ≠ 4294967296 :=
  ⟨connect_to_server_zero_all_fail (fun _ => false) (fun _ => rfl), by decide⟩

/-- C10 amended: when `connect_to_server` is called with `attempts = 0` it
does not make zero attempts — the do-while body runs once before the test,
and the post-decrement of the u32 counter wraps from `0` to `2^32 - 1` — so
on persistent failure it performs `2^32 = 4294967296` probe attempts, each
except the first followed by a delay (`2^32 - 1` delays), before returning
`Invalid`. -/
theorem C10_zero_attempts_wraps (probeOk : Nat → Bool)
    (hfail : ∀ i, probeOk i = false) :
    connect_to_server probeOk 0 = (none, 4294967296, 4294967295) ∧
    (4294967296 : Nat) = 2 ^ 32 :=
  ⟨connect_to_server_zero_all_fail probeOk hfail, by norm_num⟩

/-- Witness for the amended C10 with the always-failing probe. -/
theorem C10_zero_attempts_wraps_witness :
    (∀ i : Nat, (fun (_ : Nat) => false) i = false) ∧
    (connect_to_server (fun _ => false) 0 = (none, 4294967296, 4294967295) ∧
      (4294967296 : Nat) = 2 ^ 32) :=
  ⟨fun _ => rfl, C10_zero_attempts_wraps (fun _ => false) (fun _ => rfl)⟩

/-- Oracles for `server_connect_to`: the per-attempt probe outcomes for the
retrying video connect, the one-shot `net_connect` result for the control
socket, and the results of the two `net_accept` calls on the listening
socket (reverse mode). -/
structure ConnectEnv where
  probeOk : Nat → Bool
  controlSock : Socket
  accept1 : Socket
  accept2 : Socket

/-- The socket-producing operations of `server_connect_to`, in program
order: which of the two data sockets the operation targets. -/
inductive SockOp where
  | video
  | control
deriving DecidableEq

/-- `server_connect_to`: three branches on `(direct, tunnel_forward)`.
Direct: retrying connect (12 attempts, 1000 ms) for video, one-shot connect
for control.  Forward: retrying connect (100 attempts, 100 ms) for video,
one-shot connect for control, then `disable_tunnel` (failure ignored) and
`tunnel_enabled := false`.  Reverse: two `net_accept`s on the listening
socket, then the atomic test-and-set and, on first win, `close_socket`.
The trace lists which data socket each socket-producing operation fills. -/
def server_connect_to (env : ConnectEnv) (s : Server) :
    Server × Bool × List SockOp :=
  if s.direct then
    let v := (connect_to_server env.probeOk 12).1
    let s1 := { s with video_socket := v }
    if v = none then (s1, false, [SockOp.video])
    else
      let s2 := { s1 with control_socket := env.controlSock }
      if env.controlSock = none then (s2, false, [SockOp.video, SockOp.control])
      else (s2, true, [SockOp.video, SockOp.control])
  else if s.tunnel_forward then
    let v := (connect_to_server env.probeOk 100).1
    let s1 := { s with video_socket := v }
    if v = none then (s1, false, [SockOp.video])
    else
      let s2 := { s1 with control_socket := env.controlSock }
      if env.controlSock = none then (s2, false, [SockOp.video, SockOp.control])
      else ({ s2 with tunnel_enabled := false }, true,
        [SockOp.video, SockOp.control])
  else
    let s1 := { s with video_socket := env.accept1 }
    if env.accept1 = none then (s1, false, [SockOp.video])
    else
      let s2 := { s1 with control_socket := env.accept2 }
      if env.accept2 = none then (s2, false, [SockOp.video, SockOp.control])
      else ({ s2 with server_socket_closed := true }, true,
        [SockOp.video, SockOp.control])

/-- C7: in all three transport modes the first socket operation of
`server_connect_to` targets `video_socket` and the second targets
`control_socket`; in particular every successful connect produces the video
socket strictly before the control socket. -/
theorem C7_video_before_control (env : ConnectEnv) (s : Server) :
    ((server_connect_to env s).2.2 = [SockOp.video] ∧
        (server_connect_to env s).2.1 = false) ∨
      (server_connect_to env s).2.2 = [SockOp.video, SockOp.control] := by
  rw [server_connect_to]
  by_cases hd : s.direct = true
  · by_cases hv : (connect_to_server env.probeOk 12).1 = none
    · simp [hd, hv]
    · by_cases hc : env.controlSock = none
      · simp [hd, hv, hc]
      · simp [hd, hv, hc]
  · by_cases hf : s.tunnel_forward = true
    · by_cases hv : (connect_to_server env.probeOk 100).1 = none
      · simp [hd, hf, hv]
      · by_cases hc : env.controlSock = none
        · simp [hd, hf, hv, hc]
        · simp [hd, hf, hv, hc]
    · by_cases ha : env.accept1 = none
      · simp [hd, hf, ha]
      · by_cases hb : env.accept2 = none
        · simp [hd, hf, ha, hb]
        · simp [hd, hf, ha, hb]

/-- The three sites that may close the listening socket after `start` opened
it: the watchdog thread (`run_wait_server`, after the agent process exits),
the lifecycle thread at the end of a successful reverse-mode
`server_connect_to`, and the first step of `server_stop`. -/
inductive Closer where
  | watchdog
  | connector
  | stopper
deriving DecidableEq

/-- One closer executing its close site.  `watchdog` and `stopper` first
check `server_socket != INVALID_SOCKET` and only then run the atomic
`atomic_flag_test_and_set` (C short-circuit: the flag is untouched when the
socket is invalid); `connector` runs the test-and-set unconditionally (its
site is only reached in the reverse branch, where the socket is valid).
The winner — the caller that saw the flag still clear — performs
`close_socket`; the count records how many `close_socket` calls happened. -/
def closer_step : Closer → Server → Server × Nat
  | Closer.watchdog, s =>
      if s.server_socket.isSome then
        ({ s with server_socket_closed := true },
          if s.server_socket_closed then 0 else 1)
      else (s, 0)
  | Closer.connector, s =>
      ({ s with server_socket_closed := true },
        if s.server_socket_closed then 0 else 1)
  | Closer.stopper, s =>
      if s.server_socket.isSome then
        ({ s with server_socket_closed := true },
          if s.server_socket_closed then 0 else 1)
      else (s, 0)

/-- An execution of any interleaving of the closers, linearised at the
atomic test-and-set — the only write shared between the watchdog thread and
the lifecycle thread (`server_socket` itself is written only before the
watchdog thread is created, as the source notes).  Accumulates the total
number of `close_socket` calls on the listening socket. -/
def run_closers : List Closer → Server → Server × Nat
  | [], s => (s, 0)
  | c :: l, s =>
      let r := closer_step c s
      let r2 := run_closers l r.1
      (r2.1, r.2 + r2.2)

theorem closer_step_socket (c : Closer) (s : Server) :
    (closer_step c s).1.server_socket = s.server_socket := by
  cases c <;> simp [closer_step] <;> split <;> simp

theorem closer_step_flag_set (c : Closer) (s : Server)
    (h : s.server_socket_closed = true) :
    (closer_step c s).1.server_socket_closed = true ∧
      (closer_step c s).2 = 0 := by
  cases c <;> simp [closer_step, h] <;> split <;> simp [h]

/-- Once the close-authority flag is set, no further closer closes. -/
theorem run_closers_flag_set (l : List Closer) :
    ∀ s : Server, s.server_socket_closed = true →
      (run_closers l s).2 = 0 := by
  induction l with
  | nil => intro s h; rfl
  | cons c l ih =>
      intro s h
      have h1 := closer_step_flag_set c s h
      simp only [run_closers]
      rw [ih _ h1.1, h1.2]

/-- With the flag initially clear, at most one close ever happens. -/
theorem run_closers_at_most_one (l : List Closer) :
    ∀ s : Server, s.server_socket_closed = false →
      (run_closers l s).2 ≤ 1 := by
  induction l with
  | nil => intro s h; simp [run_closers]
  | cons c l ih =>
      intro s h
      simp only [run_closers]
      by_cases hc : (closer_step c s).2 = 0
      · rw [hc]
        simp only [Nat.zero_add]
        by_cases hf : (closer_step c s).1.server_socket_closed = true
        · rw [run_closers_flag_set l _ hf]
          omega
        · have hf' : (closer_step c s).1.server_socket_closed = false := by
            simpa using hf
          exact ih _ hf'
      · have h2 : (closer_step c s).2 = 1 ∧
            (closer_step c s).1.server_socket_closed = true := by
          cases c <;> simp [closer_step, h] at hc ⊢ <;>
            first
            | exact ⟨by simpa using hc, rfl⟩
            | (split at hc <;> simp_all [closer_step])
        rw [h2.1, run_closers_flag_set l _ h2.2]

/-- With the flag clear and the socket open, every closer fires, so any
nonempty execution performs exactly one close. -/
theorem run_closers_exactly_one (c : Closer) (l : List Closer) (s : Server)
    (hflag : s.server_socket_closed = false)
    (hsock : s.server_socket.isSome = true) :
    (run_closers (c :: l) s).2 = 1 := by
  have h1 : (closer_step c s).2 = 1 ∧
      (closer_step c s).1.server_socket_closed = true := by
    cases c <;> simp [closer_step, hflag, hsock]
  simp only [run_closers]
  rw [h1.1, run_closers_flag_set l _ h1.2]

/-- C1: starting from a state whose close-authority flag is clear (as
`start` leaves it when it opened the listening socket), every interleaving
of the three closers performs at most one `close_socket` on the listening
socket — each closer first wins the test-and-set, so no execution closes it
twice — and every interleaving that contains `server_stop`, run with the
socket open, performs exactly one close: the socket is never left unclosed
after stop. -/
theorem C1_listen_socket_closed_once (s : Server) (l : List Closer)
    (hflag : s.server_socket_closed = false) :
    (run_closers l s).2 ≤ 1 ∧
    (s.server_socket.isSome = true → Closer.stopper ∈ l →
      (run_closers l s).2 = 1) := by
  refine ⟨run_closers_at_most_one l s hflag, ?_⟩
  intro hsock hmem
  cases l with
  | nil => simp at hmem
  | cons c l => exact run_closers_exactly_one c l s hflag hsock

/-- Witness for C1: watchdog and stop race on an open listening socket;
exactly one close happens. -/
theorem C1_listen_socket_closed_once_witness :
    ({ server_init with server_socket := some 5 } : Server).server_socket_closed
        = false ∧
    ((run_closers [Closer.watchdog, Closer.stopper]
        { server_init with server_socket := some 5 }).2 ≤ 1 ∧
      (({ server_init with server_socket := some 5 } : Server).server_socket.isSome
          = true →
        Closer.stopper ∈ [Closer.watchdog, Closer.stopper] →
        (run_closers [Closer.watchdog, Closer.stopper]
          { server_init with server_socket := some 5 }).2 = 1)) :=
  ⟨rfl, C1_listen_socket_closed_once
    { server_init with server_socket := some 5 }
    [Closer.watchdog, Closer.stopper] rfl⟩

/-- `struct server_params` as read by `server.c`.  Only `port_range` and
`force_adb_forward` influence the control flow modelled here; the remaining
fields are serialised into the agent's argv (adb) or the start URL (direct). -/
structure ServerParams where
  log_level : Nat
  max_size : Nat
  bit_rate : Nat
  max_fps : Nat
  lock_video_orientation : Int
  display_id : Nat
  crop : Option String
  control : Bool
  show_touches : Bool
  stay_awake : Bool
  codec_options : Option String
  encoder_name : Option String
  port_range : PortRange
  force_adb_forward : Bool

/-- Oracles for `server_start`: whether the direct-mode start GET succeeds
(`execute_server_curl` finds `success` in the body), whether `adb push`
succeeds, the tunnel oracles, whether `adb shell app_process …` yields a
process handle, and whether `SDL_CreateThread` succeeds. -/
structure StartEnv where
  curlStartOk : Bool
  pushOk : Bool
  tunnelEnv : TunnelEnv
  execOk : Bool
  threadOk : Bool

/-- External actions of `server_start`, in program order.  `closeSockEv`
records the argument passed to `close_socket` — including the case where
that argument is `INVALID_SOCKET` (`none`). -/
inductive StartEvent where
  | curlStart
  | pushEv
  | execEv
  | spawnWatchdog
  | terminateAgent
  | closeSockEv (sock : Socket)
  | curlStop
  | disableTunnelEv
deriving DecidableEq

/-- Result of `server_start`: the final state, the boolean return value,
the trace of external actions, and whether every assertion encountered
held (`assertOk = false` means some `assert` was violated). -/
structure StartResult where
  server : Server
  ok : Bool
  events : List StartEvent
  assertOk : Bool
deriving DecidableEq

/-- The `error2:` / `error1:` unwind of `server_start`.  When
`tunnel_forward` is false it runs `atomic_flag_test_and_set` (asserting the
flag was still clear) and then `close_socket(server->server_socket)` —
`close_socket` itself asserts its argument is not `INVALID_SOCKET`.  Then
direct mode issues the stop GET, other modes `disable_tunnel`; finally
`error1:` frees `serial`. -/
def server_error_unwind (s : Server) : Server × List StartEvent × Bool :=
  if s.tunnel_forward = false then
    let aOk := !s.server_socket_closed && s.server_socket.isSome
    let evs := StartEvent.closeSockEv s.server_socket ::
      (if s.direct then [StartEvent.curlStop] else [StartEvent.disableTunnelEv])
    ({ s with server_socket_closed := true, serial := none }, evs, aOk)
  else
    let evs :=
      if s.direct then [StartEvent.curlStop] else [StartEvent.disableTunnelEv]
    ({ s with serial := none }, evs, true)

/-- `server_start`: record the port range and duplicate `serial` (string
allocation is modelled as succeeding); in direct mode run the start GET,
otherwise push the agent, establish the tunnel and launch the agent via
adb; in both modes finally spawn the watchdog thread and set
`tunnel_enabled`.  Each failure point unwinds exactly as the source's
`goto error1`/`error2` labels do. -/
def server_start (env : StartEnv) (s0 : Server) (serial : Option String)
    (params : ServerParams) : StartResult :=
  let s : Server := { s0 with port_range := params.port_range, serial := serial }
  if s.direct then
    if env.curlStartOk = false then
      let u := server_error_unwind s
      ⟨u.1, false, StartEvent.curlStart :: u.2.1, u.2.2⟩
    else if env.threadOk = false then
      let u := server_error_unwind s
      ⟨u.1, false, StartEvent.curlStart :: StartEvent.terminateAgent :: u.2.1,
        u.2.2⟩
    else
      ⟨{ s with wait_server_thread := some 1, tunnel_enabled := true }, true,
        [StartEvent.curlStart, StartEvent.spawnWatchdog], true⟩
  else
    if env.pushOk = false then
      ⟨{ s with serial := none }, false, [StartEvent.pushEv], true⟩
    else
      let t := enable_tunnel_any_port env.tunnelEnv s params.port_range
        params.force_adb_forward
      if t.2.1 = false then
        ⟨{ t.1 with serial := none }, false, [StartEvent.pushEv], true⟩
      else
        let s2 : Server :=
          { t.1 with process := if env.execOk then some 1 else none }
        if env.execOk = false then
          let u := server_error_unwind s2
          ⟨u.1, false, StartEvent.pushEv :: StartEvent.execEv :: u.2.1, u.2.2⟩
        else if env.threadOk = false then
          let u := server_error_unwind s2
          ⟨u.1, false, StartEvent.pushEv :: StartEvent.execEv ::
            StartEvent.terminateAgent :: u.2.1, u.2.2⟩
        else
          ⟨{ s2 with wait_server_thread := some 1, tunnel_enabled := true },
            true,
            [StartEvent.pushEv, StartEvent.execEv, StartEvent.spawnWatchdog],
            true⟩

/-- Oracle for `server_stop`: whether the bounded condition wait timed out. -/
structure StopEnv where
  timedOut : Bool
deriving DecidableEq

/-- External actions of `server_stop`, in program order. -/
inductive StopEvent where
  | closeListen
  | closeVideo
  | closeControl
  | disableTunnelStop
  | curlStopStop
  | killServer
  | joinThread
deriving DecidableEq

/-- `server_stop`: CAS-close the listening socket if valid, close the data
sockets if valid, `assert(server->process != PROCESS_NONE)`, remove the
tunnel when still enabled (non-direct), issue the stop GET (direct), wait
up to 1 s for the watchdog to observe process exit, kill the agent on
timeout, and join the watchdog thread.  Returns the final state, the action
trace, and whether the assertion held. -/
def server_stop (env : StopEnv) (s : Server) : Server × List StopEvent × Bool :=
  let closeable := s.server_socket.isSome && !s.server_socket_closed
  let s1 : Server :=
    if s.server_socket.isSome then { s with server_socket_closed := true }
    else s
  let ev1 := (if closeable then [StopEvent.closeListen] else []) ++
    (if s.video_socket.isSome then [StopEvent.closeVideo] else []) ++
    (if s.control_socket.isSome then [StopEvent.closeControl] else [])
  let assertOk := s.process.isSome
  let ev2 :=
    if s1.tunnel_enabled && !s1.direct then [StopEvent.disableTunnelStop]
    else []
  let ev3 := if s1.direct then [StopEvent.curlStopStop] else []
  let ev4 :=
    if !s1.process_terminated && env.timedOut then [StopEvent.killServer]
    else []
  (s1, ev1 ++ ev2 ++ ev3 ++ ev4 ++ [StopEvent.joinThread], assertOk)

/-- `server_destroy`: free `serial` and `url` (`SDL_free(NULL)` is a no-op)
and destroy the condition variable and mutex; it is total and cannot fail,
also on a never-started instance. -/
def server_destroy (s : Server) : Server :=
  { s with serial := none, url := none }

/-- A direct-mode server as prepared before `server_start` (the caller sets
`direct` and `url`; everything else is as `server_init` leaves it — in
particular `process = PROCESS_NONE` and `server_socket = INVALID_SOCKET`). -/
def directServer : Server :=
  { server_init with direct := true, url := some "http://10.0.0.2:8080" }

/-- Concrete parameters used by the lifecycle evaluations. -/
def paramsDefault : ServerParams :=
  { log_level := 1
    max_size := 0
    bit_rate := 8000000
    max_fps := 0
    lock_video_orientation := -1
    display_id := 0
    crop := none
    control := true
    show_touches := false
    stay_awake := false
    codec_options := none
    encoder_name := none
    port_range := ⟨27183, 27199⟩
    force_adb_forward := false }

/-- Environment in which every external step of `server_start` succeeds. -/
def startEnvAllOk : StartEnv :=
  { curlStartOk := true
    pushOk := true
    tunnelEnv := tunnelEnvAllFail
    execOk := true
    threadOk := true }

/-- Environment in which the direct-mode start GET fails. -/
def startEnvCurlFail : StartEnv :=
  { startEnvAllOk with curlStartOk := false }

/-- C2, failing evaluation: in direct mode a successful `server_start` never
assigns `server->process` (it stays `PROCESS_NONE`), so the subsequent
`server_stop` violates its own `assert(server->process != PROCESS_NONE)` —
contradicting the claim that `stop` never fails after any successful start.
`server_destroy` by contrast is total and also succeeds on a never-started
instance. -/
theorem C2_direct_stop_assert_fails :
    (server_start startEnvAllOk directServer none paramsDefault).ok = true ∧
    (server_start startEnvAllOk directServer none paramsDefault).server.process
        = none ∧
    (server_stop ⟨false⟩
        (server_start startEnvAllOk directServer none paramsDefault).server).2.2
        = false ∧
    server_destroy server_init
        = { server_init with serial := none, url := none } := by
  refine ⟨rfl, rfl, rfl, rfl⟩

/-- C3, failing evaluation: in direct mode, when the start GET fails,
`server_start` does return err, free `serial` and issue the stop GET — but
its `error2:` block also runs the `!tunnel_forward` branch and calls
`close_socket(server->server_socket)` with `server_socket` still
`INVALID_SOCKET` (it was never opened on the direct path), violating
`close_socket`'s `assert(socket != INVALID_SOCKET)` — contradicting the
claim that the unwind touches only resources that were actually acquired. -/
theorem C3_direct_start_unwind_closes_invalid :
    (server_start startEnvCurlFail directServer none paramsDefault).ok
        = false ∧
    StartEvent.curlStop ∈
        (server_start startEnvCurlFail directServer none paramsDefault).events ∧
    (server_start startEnvCurlFail directServer none paramsDefault).server.serial
        = none ∧
    StartEvent.closeSockEv none ∈
        (server_start startEnvCurlFail directServer none paramsDefault).events ∧
    (server_start startEnvCurlFail directServer none paramsDefault).assertOk
        = false := by
  refine ⟨rfl, ?_, rfl, ?_, rfl⟩ <;> decide
